import Mathlib

/-!
Verification of the MacDevTUI terminal-wizard state machine.

The Go sources (`models.go`, `config.go`, `main.go`, `installer.go`) are
embedded shallowly below: pure functions become Lean functions, the
Bubble-Tea `Update` loop becomes an explicit state-transition function on
the `Model` record, and the fallible configuration load is represented by
its outcome (`Except String InstallConfig`).  Machine integers are modelled
by `Int`/`Nat` (terminal sizes, list indices and progress percentages stay
far from any overflow boundary in this program).
-/

namespace MacDevTUI

/-- Status of an installation step (`InstallStatus` in `models.go`). -/
inductive InstallStatus where
  | ready
  | inProgress
  | complete
  | error
deriving DecidableEq, Repr

/-- One selectable provisioning step (`SetupStep` in `models.go`).
`estTime` is the Go `time.Duration` in nanoseconds. -/
structure SetupStep where
  id : String
  title : String
  icon : String
  description : String
  items : List String
  estTime : Nat
  status : InstallStatus
  error : String
  progress : Int
  enabled : Bool
deriving DecidableEq, Repr

/-- Keyboard layout preference (`KeyboardLayout` in `main.go`). -/
inductive KeyboardLayout where
  | qwerty
  | colemakDH
deriving DecidableEq, Repr

/-- A popup notification (`Notification` in `main.go`); `type` is one of
"info", "success", "error". -/
structure Notification where
  title : String
  message : String
  type : String
deriving DecidableEq, Repr

/-- Homebrew-related configuration (`HombrewConfig` in `config.go`). -/
structure HombrewConfig where
  install : Bool
  brewfilePaths : List String
deriving DecidableEq, Repr

/-- Shell setup configuration (`ShellConfig` in `config.go`). -/
structure ShellConfig where
  install : Bool
  requiredTools : List String
  shellFiles : List String
  themeFile : String
  initCommands : List (List String)
deriving DecidableEq, Repr

/-- A programming-language configuration (`Language` in `config.go`). -/
structure Language where
  name : String
  enabled : Bool
  commands : List (List String)
deriving DecidableEq, Repr

/-- Development tools configuration (`DevToolsConfig` in `config.go`). -/
structure DevToolsConfig where
  install : Bool
  languages : List Language
  globalTools : List (List String)
  verifyTools : List String
deriving DecidableEq, Repr

/-- Dotfiles restoration configuration (`DotfilesConfig` in `config.go`);
the Go `map[string]string` is embedded as an association list. -/
structure DotfilesConfig where
  install : Bool
  mappings : List (String × String)
deriving DecidableEq, Repr

/-- Terminal configuration (`TerminalConfig` in `config.go`); the Go
`map[string]string` is embedded as an association list. -/
structure TerminalConfig where
  install : Bool
  configFiles : List (String × String)
deriving DecidableEq, Repr

/-- The full installer configuration (`InstallConfig` in `config.go`). -/
structure InstallConfig where
  homebrew : HombrewConfig
  shell : ShellConfig
  devTools : DevToolsConfig
  dotfiles : DotfilesConfig
  terminal : TerminalConfig
deriving DecidableEq, Repr

/-- The main application state (`Model` in `main.go`).  `selectedStep`,
`currentProgress`, `width` and `height` are Go `int`s, embedded as `Int`
(`width`/`height` as `Nat`: terminal dimensions are non-negative). -/
structure Model where
  steps : List SetupStep
  selectedStep : Int
  keyboardLayout : KeyboardLayout
  width : Nat
  height : Nat
  installing : Bool
  showHelp : Bool
  currentProgress : Int
  currentMessage : String
  config : Option InstallConfig
  notification : Option Notification
deriving DecidableEq, Repr

/-- An installation progress message (`InstallMsg` in `installer.go`).
The Go `error` field is embedded as `Option String` carrying the text
produced by `Error()`. -/
structure InstallMsg where
  stepID : String
  status : InstallStatus
  progress : Int
  message : String
  error : Option String
deriving DecidableEq, Repr

/-- `strStartsWith pat s` is true when `pat` is an initial segment of `s`
(the character-list core of Go `strings.HasPrefix`). -/
def strStartsWith : List Char → List Char → Bool
  | [], _ => true
  | _ :: _, [] => false
  | p :: ps, c :: cs => p = c && strStartsWith ps cs

/-- Occurrence of `pat` as a contiguous segment of `s`
(the character-list core of Go `strings.Contains`). -/
def strContainsAux (pat : List Char) : List Char → Bool
  | [] => strStartsWith pat []
  | c :: cs => strStartsWith pat (c :: cs) || strContainsAux pat cs

/-- Go `strings.Contains s pat`. -/
def strContains (s pat : String) : Bool :=
  strContainsAux pat.data s.data

/-- Replace the element at index `i` by `f` of it; out-of-range indices
leave the list unchanged (used to embed in-place slice updates). -/
def modifyAt (f : α → α) : Nat → List α → List α
  | _, [] => []
  | 0, x :: xs => f x :: xs
  | n + 1, x :: xs => x :: modifyAt f n xs

/-- The step-matching loop at the top of the `InstallMsg` branch of
`Model.Update` in `main.go`: the first step whose `ID` equals
`msg.StepID` gets `Status := msg.Status` and, when the message carries an
error, `Error := msg.Error.Error()`; the loop `break`s after the first
match. -/
def applyStepUpdate (msg : InstallMsg) : List SetupStep → List SetupStep
  | [] => []
  | s :: rest =>
    if s.id = msg.stepID then
      { s with
        status := msg.status,
        error := match msg.error with
          | some e => e
          | none => s.error } :: rest
    else
      s :: applyStepUpdate msg rest

/-- The `InstallMsg` branch of `Model.Update` in `main.go`, in source
order: fold the message into the matching step, then the error branch,
then the progress/message updates, then the completion check. -/
def Model.updateInstall (m : Model) (msg : InstallMsg) : Model :=
  let m1 :=
    if msg.stepID ≠ "" then { m with steps := applyStepUpdate msg m.steps } else m
  let m2 :=
    match msg.error with
    | some e =>
      { m1 with
        installing := false,
        notification := some
          { title := "Installation Error",
            message := "Step '" ++ msg.stepID ++ "' failed: " ++ e ++
              "\nPress Enter to dismiss",
            type := "error" } }
    | none => m1
  let m3 := if msg.progress > 0 then { m2 with currentProgress := msg.progress } else m2
  let m4 := if msg.message ≠ "" then { m3 with currentMessage := msg.message } else m3
  if strContains msg.message "complete!" then
    { m4 with
      installing := false,
      currentProgress := 100,
      steps := m4.steps.map fun s =>
        if s.enabled then { s with status := InstallStatus.complete } else s,
      notification := some
        { title := "Installation Complete!",
          message := "Report saved to: ./macdevtui-report.md\nPress Enter to dismiss",
          type := "success" } }
  else m4

/-- `Model.toggleStep` in `main.go`: flip `Enabled` on the selected step
when the index is in range, otherwise do nothing. -/
def Model.toggleStep (m : Model) : Model :=
  if m.selectedStep ≥ 0 ∧ m.selectedStep < (m.steps.length : Int) then
    { m with
      steps := modifyAt (fun s => { s with enabled := !s.enabled }) m.selectedStep.toNat m.steps }
  else m

/-- The navigation `switch` at the bottom of `Model.handleKeypress` in
`main.go`.  The QWERTY and Colemak-DH switches are identical except for
the letter bound to up (`k` / `u`) and to down (`j` / `e`), so the shared
body is factored over those two letters. -/
def Model.navKeys (m : Model) (key upAlt downAlt : String) : Model :=
  if key = "up" ∨ key = upAlt then
    if m.selectedStep > 0 then { m with selectedStep := m.selectedStep - 1 } else m
  else if key = "down" ∨ key = downAlt then
    if m.selectedStep < (m.steps.length : Int) - 1 then
      { m with selectedStep := m.selectedStep + 1 }
    else m
  else if key = "enter" ∨ key = " " then
    m.toggleStep
  else m

/-- `Model.handleKeypress` in `main.go`.  The returned `tea.Cmd` (quit or
start-installation) carries no state, so only the next `Model` is
embedded; the `s`/`S` branch records its state effect (`installing :=
true`). -/
def Model.handleKeypress (m : Model) (key : String) : Model :=
  if m.notification ≠ none ∧ (key = "enter" ∨ key = "esc") then
    { m with notification := none }
  else if key = "q" ∨ key = "esc" ∨ key = "ctrl+c" then
    m
  else if key = "?" then
    { m with showHelp := !m.showHelp }
  else if key = "c" then
    { m with
      keyboardLayout :=
        if m.keyboardLayout = KeyboardLayout.qwerty then KeyboardLayout.colemakDH
        else KeyboardLayout.qwerty }
  else if key = "s" ∨ key = "S" then
    if !m.installing ∧ m.notification = none then { m with installing := true } else m
  else if m.keyboardLayout = KeyboardLayout.qwerty then
    m.navKeys key "k" "j"
  else
    m.navKeys key "u" "e"

/-- The events folded by `Model.Update` in `main.go`:
`tea.WindowSizeMsg`, `tea.KeyMsg` (by its `String()` value) and
`InstallMsg`. -/
inductive Msg where
  | windowSize (width height : Nat)
  | key (k : String)
  | install (im : InstallMsg)
deriving DecidableEq, Repr

/-- `Model.Update` in `main.go` as a state-transition function. -/
def Model.update (m : Model) (msg : Msg) : Model :=
  match msg with
  | Msg.windowSize w h => { m with width := w, height := h }
  | Msg.key k => m.handleKeypress k
  | Msg.install im => m.updateInstall im

/-- The navigation-pane width ladder of `Model.View` in `main.go`. -/
def navWidthOf (width : Nat) : Nat :=
  if width < 80 then 25
  else if width < 120 then
    if width / 4 < 25 then 25 else width / 4
  else
    if width / 3 > 50 then 50 else width / 3

/-- The pane-width computation of `Model.View` in `main.go`: navigation
width from the ladder, detail width as the remainder minus the spacing
allowance of 6, with the narrow-terminal fallback forcing the detail pane
to 20 columns. -/
def layoutOf (width : Nat) : Nat × Nat :=
  let navWidth := navWidthOf width
  let detailWidth := width - navWidth - 6
  if detailWidth < 20 then (width - 20 - 6, 20) else (navWidth, detailWidth)

/-- One minute of Go `time.Duration`, in nanoseconds. -/
def minuteNs : Nat := 60 * 1000000000

/-- `getConfigurableSteps` in `models.go`, on a non-nil configuration
(`NewModel` only calls it with a successfully loaded one; the nil case
returns the empty list and is covered by the failure branch of
`NewModel`). -/
def getConfigurableSteps (config : InstallConfig) : List SetupStep :=
  (if config.homebrew.install then
    [{ id := "homebrew",
       title := "Homebrew & Packages",
       icon := "▶",
       description := "Install Homebrew and packages from Brewfile",
       items :=
         ["Homebrew package manager",
          "Brewfile locations: " ++ toString config.homebrew.brewfilePaths.length ++
            " paths configured",
          "Packages from: " ++ String.intercalate ", " config.homebrew.brewfilePaths],
       estTime := 15 * minuteNs,
       status := InstallStatus.ready,
       error := "",
       progress := 0,
       enabled := true }]
  else []) ++
  (if config.terminal.install then
    [{ id := "terminal",
       title := "Terminal Configuration",
       icon := "▶",
       description := "Configure terminal applications with Catppuccin theme",
       items := config.terminal.configFiles.map fun p => p.1 ++ " → " ++ p.2,
       estTime := 2 * minuteNs,
       status := InstallStatus.ready,
       error := "",
       progress := 0,
       enabled := true }]
  else []) ++
  (if config.shell.install then
    [{ id := "shell",
       title := "Shell & Prompt Setup",
       icon := "▶",
       description := "Configure Zsh with Oh-My-Posh and productivity tools",
       items :=
         ["Required tools: " ++ String.intercalate ", " config.shell.requiredTools,
          "Shell files: " ++ String.intercalate ", " config.shell.shellFiles,
          "Theme file: " ++ config.shell.themeFile,
          "Init commands: " ++ toString config.shell.initCommands.length ++ " configured"],
       estTime := 3 * minuteNs,
       status := InstallStatus.ready,
       error := "",
       progress := 0,
       enabled := true }]
  else []) ++
  (if config.devTools.install then
    [{ id := "devtools",
       title := "Development Tools",
       icon := "▶",
       description := "Configure development environments and toolchains",
       items :=
         (config.devTools.languages.map fun lang =>
           lang.name ++ ": " ++ (if lang.enabled then "enabled" else "disabled") ++
             " (" ++ toString lang.commands.length ++ " commands)") ++
         ["Verify tools: " ++ String.intercalate ", " config.devTools.verifyTools],
       estTime := 5 * minuteNs,
       status := InstallStatus.ready,
       error := "",
       progress := 0,
       enabled := true }]
  else []) ++
  (if config.dotfiles.install then
    [{ id := "dotfiles",
       title := "Restore Dotfiles",
       icon := "▶",
       description := "Copy configuration files to their destinations",
       items := config.dotfiles.mappings.map fun p => p.1 ++ " → " ++ p.2,
       estTime := 1 * minuteNs,
       status := InstallStatus.ready,
       error := "",
       progress := 0,
       enabled := true }]
  else []) ++
  [{ id := "verify",
     title := "Verify Installation",
     icon := "▶",
     description := "Test that all tools are properly installed and accessible",
     items :=
       ["Check tool availability in PATH",
        "Validate configurations",
        "Generate installation report"],
     estTime := 2 * minuteNs,
     status := InstallStatus.ready,
     error := "",
     progress := 0,
     enabled := true }]

/-- `NewModel` in `main.go`, parametrised by the outcome of the
`LoadConfig()` call (`config.go` performs file-system probing; its result
is either an error text or a validated configuration). -/
def NewModel (loadResult : Except String InstallConfig) : Model :=
  match loadResult with
  | Except.error e =>
    { steps := [],
      selectedStep := 0,
      keyboardLayout := KeyboardLayout.colemakDH,
      width := 0,
      height := 0,
      installing := false,
      showHelp := false,
      currentProgress := 0,
      currentMessage := "Ready to install",
      config := none,
      notification := some
        { title := "Configuration Error",
          message := "Failed to load configuration: " ++ e ++ "\nPress q to quit",
          type := "error" } }
  | Except.ok config =>
    { steps := getConfigurableSteps config,
      selectedStep := 0,
      keyboardLayout := KeyboardLayout.colemakDH,
      width := 0,
      height := 0,
      installing := false,
      showHelp := false,
      currentProgress := 0,
      currentMessage := "Ready to install",
      config := some config,
      notification := none }

/-- Fallback `SetupStep` used as the `List.getD` default in theorem
statements (never an actual step). -/
def defaultStep : SetupStep :=
  { id := "", title := "", icon := "", description := "", items := [],
    estTime := 0, status := InstallStatus.ready, error := "", progress := 0,
    enabled := false }

/-- A concrete ready step used by the concrete evaluations below. -/
def stepA : SetupStep :=
  { id := "homebrew", title := "Homebrew & Packages", icon := "▶",
    description := "Install Homebrew and packages from Brewfile", items := [],
    estTime := 15 * minuteNs, status := InstallStatus.ready, error := "",
    progress := 0, enabled := true }

/-- A second concrete ready step. -/
def stepB : SetupStep :=
  { id := "shell", title := "Shell & Prompt Setup", icon := "▶",
    description := "Configure Zsh", items := [], estTime := 3 * minuteNs,
    status := InstallStatus.ready, error := "", progress := 0, enabled := true }

/-- A concrete session state: two steps, second one selected, idle. -/
def mBase : Model :=
  { steps := [stepA, stepB], selectedStep := 1,
    keyboardLayout := KeyboardLayout.qwerty, width := 100, height := 30,
    installing := false, showHelp := false, currentProgress := 0,
    currentMessage := "Ready to install", config := none, notification := none }

/-- A concrete error notification. -/
def errNotif : Notification :=
  { title := "Installation Error",
    message := "Step failed\nPress Enter to dismiss", type := "error" }

/-- `mBase` with an active error notification. -/
def mNotif : Model := { mBase with notification := some errNotif }

/-- `mBase` mid-installation at 80 percent progress. -/
def mInstalling : Model := { mBase with installing := true, currentProgress := 80 }

/-- `mBase` after a finished run: idle at 100 percent progress. -/
def mDone : Model := { mBase with currentProgress := 100 }

/-- A concrete failure message from the installer. -/
def msgErr : InstallMsg :=
  { stepID := "homebrew", status := InstallStatus.error, progress := 0,
    message := "Failed: boom", error := some "boom" }

/-- A concrete failure message whose text also contains "complete!". -/
def msgErrComplete : InstallMsg :=
  { stepID := "homebrew", status := InstallStatus.error, progress := 0,
    message := "brew step incomplete!", error := some "boom" }

/-- The concrete overall-success message emitted by `StartInstallation`. -/
def msgComplete : InstallMsg :=
  { stepID := "", status := InstallStatus.ready, progress := 100,
    message := "All installations complete!", error := none }

/-- A concrete mid-run progress message at 50 percent. -/
def msgProgress50 : InstallMsg :=
  { stepID := "", status := InstallStatus.ready, progress := 50,
    message := "Installing packages", error := none }

theorem modifyAt_length (f : α → α) (i : Nat) (l : List α) :
    (modifyAt f i l).length = l.length := by
  induction l generalizing i with
  | nil => cases i <;> rfl
  | cons x xs ih => cases i with
    | zero => rfl
    | succ n => simpa [modifyAt] using ih n

theorem modifyAt_getD_ne (f : α → α) (i j : Nat) (l : List α) (d : α) (h : j ≠ i) :
    (modifyAt f i l).getD j d = l.getD j d := by
  induction l generalizing i j with
  | nil => cases i <;> rfl
  | cons x xs ih =>
    cases i with
    | zero =>
      cases j with
      | zero => exact absurd rfl h
      | succ n => rfl
    | succ n =>
      cases j with
      | zero => rfl
      | succ k =>
        simpa [modifyAt, List.getD_cons_succ] using ih n k (fun hk => h (by simp [hk]))

theorem modifyAt_getD_eq (f : α → α) (i : Nat) (l : List α) (d : α) (h : i < l.length) :
    (modifyAt f i l).getD i d = f (l.getD i d) := by
  induction l generalizing i with
  | nil => simp at h
  | cons x xs ih =>
    cases i with
    | zero => rfl
    | succ n =>
      simp only [modifyAt, List.getD_cons_succ]
      exact ih n (by simpa using h)

theorem modifyAt_modifyAt (f g : α → α) (i : Nat) (l : List α) :
    modifyAt f i (modifyAt g i l) = modifyAt (fun x => f (g x)) i l := by
  induction l generalizing i with
  | nil => cases i <;> rfl
  | cons x xs ih =>
    cases i with
    | zero => rfl
    | succ n => simpa [modifyAt] using ih n

theorem modifyAt_congr_id (f : α → α) (hf : ∀ x, f x = x) (i : Nat) (l : List α) :
    modifyAt f i l = l := by
  induction l generalizing i with
  | nil => cases i <;> rfl
  | cons x xs ih =>
    cases i with
    | zero => simp [modifyAt, hf x]
    | succ n => simp [modifyAt, ih n]

theorem applyStepUpdate_length (msg : InstallMsg) (l : List SetupStep) :
    (applyStepUpdate msg l).length = l.length := by
  induction l with
  | nil => rfl
  | cons s rest ih =>
    by_cases h : s.id = msg.stepID <;> simp [applyStepUpdate, h, ih]

theorem applyStepUpdate_enabled (msg : InstallMsg) (l : List SetupStep) (i : Nat) :
    ((applyStepUpdate msg l).getD i defaultStep).enabled =
      (l.getD i defaultStep).enabled := by
  induction l generalizing i with
  | nil => rfl
  | cons s rest ih =>
    by_cases h : s.id = msg.stepID
    · cases i with
      | zero => simp [applyStepUpdate, h]
      | succ n => simp [applyStepUpdate, h]
    · cases i with
      | zero => simp [applyStepUpdate, h]
      | succ n => simpa [applyStepUpdate, h] using ih n

theorem applyStepUpdate_first (msg : InstallMsg) (l : List SetupStep) (i : Nat)
    (hi : i < l.length)
    (hmatch : (l.getD i defaultStep).id = msg.stepID)
    (hfirst : ∀ j, j < i → (l.getD j defaultStep).id ≠ msg.stepID) :
    ((applyStepUpdate msg l).getD i defaultStep).status = msg.status ∧
    ((applyStepUpdate msg l).getD i defaultStep).error =
      (match msg.error with
        | some e => e
        | none => (l.getD i defaultStep).error) := by
  induction l generalizing i with
  | nil => simp at hi
  | cons s rest ih =>
    cases i with
    | zero =>
      have hs : s.id = msg.stepID := by simpa using hmatch
      cases he : msg.error <;> simp [applyStepUpdate, hs, he]
    | succ n =>
      have hs : s.id ≠ msg.stepID := by
        simpa using hfirst 0 (Nat.succ_pos n)
      simp only [applyStepUpdate, if_neg hs, List.getD_cons_succ]
      exact ih n (by simpa using hi) (by simpa using hmatch)
        (fun j hj => by simpa using hfirst (j + 1) (by omega))

theorem getD_map_step (f : SetupStep → SetupStep) (l : List SetupStep) (i : Nat)
    (hi : i < l.length) :
    (l.map f).getD i defaultStep = f (l.getD i defaultStep) := by
  induction l generalizing i with
  | nil => simp at hi
  | cons s rest ih =>
    cases i with
    | zero => rfl
    | succ n =>
      simp only [List.map, List.getD_cons_succ]
      exact ih n (by simpa using hi)

/-- C1 (amended): an error-carrying progress/result event whose message
text does not contain "complete!" forces `installing` to false, raises an
active error-kind notification, and sets the first step whose identifier
matches the message to the message's status with the error text recorded
in its `Error` field — regardless of the prior state.  (The original
claim, without the "complete!" proviso, is refuted by
`error_message_supersedes_counterexample`.) -/
theorem error_message_fails_run (m : Model) (msg : InstallMsg) (e : String)
    (herr : msg.error = some e)
    (hnc : strContains msg.message "complete!" = false) :
    (m.updateInstall msg).installing = false ∧
    ((m.updateInstall msg).notification.map Notification.type) = some "error" ∧
    ∀ i, i < m.steps.length →
      msg.stepID ≠ "" →
      (m.steps.getD i defaultStep).id = msg.stepID →
      (∀ j, j < i → (m.steps.getD j defaultStep).id ≠ msg.stepID) →
      ((m.updateInstall msg).steps.getD i defaultStep).status = msg.status ∧
      ((m.updateInstall msg).steps.getD i defaultStep).error = e := by
  have key : (m.updateInstall msg).steps =
      (if msg.stepID ≠ "" then applyStepUpdate msg m.steps else m.steps) := by
    simp only [Model.updateInstall, herr, hnc, Bool.false_eq_true, if_false]
    split_ifs <;> simp
  refine ⟨?_, ?_, ?_⟩
  · simp only [Model.updateInstall, herr, hnc, Bool.false_eq_true, if_false]
    split_ifs <;> simp
  · simp only [Model.updateInstall, herr, hnc, Bool.false_eq_true, if_false]
    split_ifs <;> simp
  · intro i hi hid hmatch hfirst
    rw [key, if_pos hid]
    have := applyStepUpdate_first msg m.steps i hi hmatch hfirst
    rw [herr] at this
    exact this

/-- C1 witness: the amended theorem evaluated on a mid-run state and the
concrete failure message the installer emits for the "homebrew" step. -/
theorem error_message_fails_run_witness :
    msgErr.error = some "boom" ∧
    strContains msgErr.message "complete!" = false ∧
    ((mInstalling.updateInstall msgErr).installing = false ∧
     ((mInstalling.updateInstall msgErr).notification.map Notification.type) = some "error" ∧
     ∀ i, i < mInstalling.steps.length →
       msgErr.stepID ≠ "" →
       (mInstalling.steps.getD i defaultStep).id = msgErr.stepID →
       (∀ j, j < i → (mInstalling.steps.getD j defaultStep).id ≠ msgErr.stepID) →
       ((mInstalling.updateInstall msgErr).steps.getD i defaultStep).status = msgErr.status ∧
       ((mInstalling.updateInstall msgErr).steps.getD i defaultStep).error = "boom") :=
  ⟨rfl, by decide, error_message_fails_run mInstalling msgErr "boom" rfl (by decide)⟩

/-- C1 counterexample: an error-carrying message whose text also contains
"complete!" ends with a success notification, not an error one, and the
matching step's status is overwritten to Complete rather than the
message's status — the completion branch of `Update` runs after, and
supersedes, the error branch. -/
theorem error_message_supersedes_counterexample :
    msgErrComplete.error = some "boom" ∧
    ((mInstalling.updateInstall msgErrComplete).notification.map Notification.type) =
      some "success" ∧
    ((mInstalling.updateInstall msgErrComplete).notification.map Notification.type) ≠
      some "error" ∧
    (mInstalling.steps.getD 0 defaultStep).id = msgErrComplete.stepID ∧
    ((mInstalling.updateInstall msgErrComplete).steps.getD 0 defaultStep).status ≠
      msgErrComplete.status := by decide

/-- C2: a progress/result event whose message text contains "complete!"
marks every step that was enabled before the event Complete, forces
`currentProgress` to 100, sets `installing` to false and raises an active
success notification. -/
theorem complete_message_finishes_run (m : Model) (msg : InstallMsg)
    (h : strContains msg.message "complete!" = true) :
    (m.updateInstall msg).installing = false ∧
    (m.updateInstall msg).currentProgress = 100 ∧
    ((m.updateInstall msg).notification.map Notification.type) = some "success" ∧
    ∀ i, i < m.steps.length → (m.steps.getD i defaultStep).enabled = true →
      ((m.updateInstall msg).steps.getD i defaultStep).status = InstallStatus.complete := by
  have key : (m.updateInstall msg).steps =
      (if msg.stepID ≠ "" then applyStepUpdate msg m.steps else m.steps).map
        (fun s => if s.enabled then { s with status := InstallStatus.complete } else s) := by
    simp only [Model.updateInstall, h]
    cases msg.error <;> split_ifs <;> simp
  refine ⟨?_, ?_, ?_, ?_⟩
  · simp only [Model.updateInstall, h]
    split_ifs <;> simp
  · simp only [Model.updateInstall, h]
    split_ifs <;> simp
  · simp only [Model.updateInstall, h]
    split_ifs <;> simp
  · intro i hi hen
    rw [key]
    by_cases hid : msg.stepID ≠ ""
    · rw [if_pos hid, getD_map_step _ _ i (by rw [applyStepUpdate_length]; exact hi)]
      have hen2 : ((applyStepUpdate msg m.steps).getD i defaultStep).enabled = true := by
        rw [applyStepUpdate_enabled]; exact hen
      rw [if_pos hen2]
    · rw [if_neg hid, getD_map_step _ _ i hi]
      rw [if_pos hen]

/-- C2 witness: the theorem evaluated on a mid-run state and the concrete
overall-success message emitted by `StartInstallation`. -/
theorem complete_message_finishes_run_witness :
    strContains msgComplete.message "complete!" = true ∧
    ((mInstalling.updateInstall msgComplete).installing = false ∧
     (mInstalling.updateInstall msgComplete).currentProgress = 100 ∧
     ((mInstalling.updateInstall msgComplete).notification.map Notification.type) =
       some "success" ∧
     ∀ i, i < mInstalling.steps.length →
       (mInstalling.steps.getD i defaultStep).enabled = true →
       ((mInstalling.updateInstall msgComplete).steps.getD i defaultStep).status =
         InstallStatus.complete) :=
  ⟨by decide, complete_message_finishes_run mInstalling msgComplete (by decide)⟩

/-- C8 (amended): across one `Update` transition, a progress value carried
by the message is applied only if it is greater than 0, and
`currentProgress` does not decrease provided the event's progress value
is either ≤ 0 or at least the current progress (the code applies any
positive value verbatim, so a positive value below the current progress
does lower it — see `progress_can_decrease_counterexample`). -/
theorem progress_update_bounds (m : Model) (msg : InstallMsg)
    (hle : m.currentProgress ≤ 100) :
    ((msg.progress ≤ 0 ∨ m.currentProgress ≤ msg.progress) →
      m.currentProgress ≤ (m.updateInstall msg).currentProgress) ∧
    (msg.progress ≤ 0 → strContains msg.message "complete!" = false →
      (m.updateInstall msg).currentProgress = m.currentProgress) := by
  have hcp : (m.updateInstall msg).currentProgress =
      (if strContains msg.message "complete!" = true then (100 : Int)
       else if msg.progress > 0 then msg.progress else m.currentProgress) := by
    simp only [Model.updateInstall]
    cases msg.error <;> split_ifs <;> simp_all
  constructor
  · intro h
    rw [hcp]
    split_ifs <;> omega
  · intro h hnc
    rw [hcp]
    simp only [hnc, Bool.false_eq_true, if_false]
    split_ifs <;> omega

/-- C8 witness: the amended theorem evaluated on a mid-run state at 80
percent and the installer's final 100-percent message. -/
theorem progress_update_bounds_witness :
    mInstalling.currentProgress ≤ 100 ∧
    (((msgComplete.progress ≤ 0 ∨ mInstalling.currentProgress ≤ msgComplete.progress) →
       mInstalling.currentProgress ≤ (mInstalling.updateInstall msgComplete).currentProgress) ∧
     (msgComplete.progress ≤ 0 → strContains msgComplete.message "complete!" = false →
       (mInstalling.updateInstall msgComplete).currentProgress =
         mInstalling.currentProgress)) :=
  ⟨by decide, progress_update_bounds mInstalling msgComplete (by decide)⟩

/-- C8 counterexample: with `installing` true and progress at 80, a
progress/result event carrying progress 50 (no error, no fresh start)
lowers `currentProgress` to 50 — progress is not non-decreasing. -/
theorem progress_can_decrease_counterexample :
    mInstalling.installing = true ∧
    mInstalling.currentProgress = 80 ∧
    msgProgress50.error = none ∧
    msgProgress50.progress = 50 ∧
    (mInstalling.updateInstall msgProgress50).currentProgress = 50 := by decide

theorem toggleStep_steps_length (m : Model) :
    m.toggleStep.steps.length = m.steps.length := by
  unfold Model.toggleStep
  split_ifs <;> simp [modifyAt_length]

theorem toggleStep_selectedStep (m : Model) :
    m.toggleStep.selectedStep = m.selectedStep := by
  unfold Model.toggleStep
  split_ifs <;> rfl

theorem navKeys_steps_length (m : Model) (key upAlt downAlt : String) :
    (m.navKeys key upAlt downAlt).steps.length = m.steps.length := by
  unfold Model.navKeys
  split_ifs <;> simp [toggleStep_steps_length]

theorem navKeys_bounds (m : Model) (key upAlt downAlt : String)
    (h0 : 0 ≤ m.selectedStep) (h1 : m.selectedStep < (m.steps.length : Int)) :
    0 ≤ (m.navKeys key upAlt downAlt).selectedStep ∧
      (m.navKeys key upAlt downAlt).selectedStep < (m.steps.length : Int) := by
  unfold Model.navKeys
  split_ifs <;> first
    | exact ⟨h0, h1⟩
    | (rw [toggleStep_selectedStep]; exact ⟨h0, h1⟩)
    | (constructor <;> simp <;> omega)

theorem handleKeypress_steps_length (m : Model) (k : String) :
    (m.handleKeypress k).steps.length = m.steps.length := by
  unfold Model.handleKeypress
  split_ifs <;> simp [navKeys_steps_length]

theorem handleKeypress_bounds (m : Model) (k : String)
    (h0 : 0 ≤ m.selectedStep) (h1 : m.selectedStep < (m.steps.length : Int)) :
    0 ≤ (m.handleKeypress k).selectedStep ∧
      (m.handleKeypress k).selectedStep < (m.steps.length : Int) := by
  unfold Model.handleKeypress
  split_ifs <;> first
    | exact ⟨h0, h1⟩
    | exact navKeys_bounds m k "k" "j" h0 h1
    | exact navKeys_bounds m k "u" "e" h0 h1

theorem foldl_handleKeypress_length (ks : List String) (m : Model) :
    (ks.foldl Model.handleKeypress m).steps.length = m.steps.length := by
  induction ks generalizing m with
  | nil => rfl
  | cons k ks ih =>
    simp only [List.foldl]
    rw [ih, handleKeypress_steps_length]

theorem foldl_handleKeypress_bounds (ks : List String) (m : Model)
    (h0 : 0 ≤ m.selectedStep) (h1 : m.selectedStep < (m.steps.length : Int)) :
    0 ≤ (ks.foldl Model.handleKeypress m).selectedStep ∧
      (ks.foldl Model.handleKeypress m).selectedStep < (m.steps.length : Int) := by
  induction ks generalizing m with
  | nil => exact ⟨h0, h1⟩
  | cons k ks ih =>
    simp only [List.foldl]
    have hb := handleKeypress_bounds m k h0 h1
    have hlen : ((m.handleKeypress k).steps.length : Int) = (m.steps.length : Int) := by
      rw [handleKeypress_steps_length]
    have := ih (m.handleKeypress k) hb.1 (by rw [hlen]; exact hb.2)
    rwa [handleKeypress_steps_length] at this

theorem nav_up_noop (m : Model) (hsel : m.selectedStep = 0) (k : String)
    (hk : k = "up" ∨ k = "k" ∨ k = "u") :
    m.handleKeypress k = m := by
  rcases hk with hk | hk | hk <;> subst hk <;>
    (unfold Model.handleKeypress Model.navKeys; simp [hsel])

theorem nav_down_noop (m : Model) (hsel : m.selectedStep = (m.steps.length : Int) - 1)
    (k : String) (hk : k = "down" ∨ k = "j" ∨ k = "e") :
    m.handleKeypress k = m := by
  rcases hk with hk | hk | hk <;> subst hk <;>
    (unfold Model.handleKeypress Model.navKeys; simp [hsel])

/-- C3 (amended): with an active notification, enter (and esc) clears the
notification and leaves every other field unchanged, and the start key is
refused (full no-op); but other keys are NOT swallowed — navigation,
help, layout and toggle keys are still processed normally (refuted
swallowing shown by `notification_navigation_counterexample`). -/
theorem notification_dismiss_keys (m : Model) (h : m.notification ≠ none) :
    m.handleKeypress "enter" = { m with notification := none } ∧
    m.handleKeypress "esc" = { m with notification := none } ∧
    m.handleKeypress "s" = m ∧
    m.handleKeypress "S" = m := by
  refine ⟨?_, ?_, ?_, ?_⟩ <;> (unfold Model.handleKeypress Model.navKeys; simp [h])

/-- C3 witness: the amended theorem evaluated on a state with an active
error notification. -/
theorem notification_dismiss_keys_witness :
    mNotif.notification ≠ none ∧
    (mNotif.handleKeypress "enter" = { mNotif with notification := none } ∧
     mNotif.handleKeypress "esc" = { mNotif with notification := none } ∧
     mNotif.handleKeypress "s" = mNotif ∧
     mNotif.handleKeypress "S" = mNotif) :=
  ⟨by decide, notification_dismiss_keys mNotif (by decide)⟩

/-- C3 counterexample: with an error notification active, pressing the
navigation-up key is not a no-op — the handler still moves the selection
from index 1 to index 0, so non-dismiss keys are not swallowed. -/
theorem notification_navigation_counterexample :
    mNotif.notification ≠ none ∧
    mNotif.handleKeypress "up" ≠ mNotif ∧
    (mNotif.handleKeypress "up").selectedStep = 0 ∧
    mNotif.selectedStep = 1 := by decide

/-- C4 (amended): the start-installation key changes the state only when
`installing` is false and no notification is active, and then the new
state is the old one with `installing := true` — in particular
`currentProgress` is left unchanged, not reset to 0 (see
`start_key_no_reset_counterexample`); otherwise the key is refused and
the state is unchanged. -/
theorem start_key_guard (m : Model) :
    m.handleKeypress "s" =
      (if m.installing = false ∧ m.notification = none
       then { m with installing := true } else m) ∧
    m.handleKeypress "S" =
      (if m.installing = false ∧ m.notification = none
       then { m with installing := true } else m) := by
  constructor <;> (unfold Model.handleKeypress Model.navKeys; simp)

/-- C4 counterexample: starting from an idle state left at 100 percent by
a previous run, the start key sets `installing` but leaves
`currentProgress` at 100 — it is not reset to 0 as claimed. -/
theorem start_key_no_reset_counterexample :
    mDone.installing = false ∧ mDone.notification = none ∧
    mDone.currentProgress = 100 ∧
    (mDone.handleKeypress "s").installing = true ∧
    (mDone.handleKeypress "s").currentProgress = 100 := by decide

/-- C5: starting from a valid selection over a non-empty step list, any
sequence of key events (in particular any sequence of navigation keys of
either layout) keeps `selectedStep` within `[0, len(steps)-1]`, and a
navigation-up at index 0 or a navigation-down at the last index (arrow
or letter form, either layout) leaves the state unchanged — no
wraparound. -/
theorem navigation_keeps_selection_in_range (m : Model) (ks : List String)
    (hne : 0 < m.steps.length)
    (h0 : 0 ≤ m.selectedStep) (h1 : m.selectedStep < (m.steps.length : Int)) :
    (0 ≤ (ks.foldl Model.handleKeypress m).selectedStep ∧
     (ks.foldl Model.handleKeypress m).selectedStep < (m.steps.length : Int)) ∧
    (m.selectedStep = 0 →
      m.handleKeypress "up" = m ∧ m.handleKeypress "k" = m ∧ m.handleKeypress "u" = m) ∧
    (m.selectedStep = (m.steps.length : Int) - 1 →
      m.handleKeypress "down" = m ∧ m.handleKeypress "j" = m ∧ m.handleKeypress "e" = m) := by
  refine ⟨foldl_handleKeypress_bounds ks m h0 h1, ?_, ?_⟩
  · intro hsel
    exact ⟨nav_up_noop m hsel _ (Or.inl rfl), nav_up_noop m hsel _ (Or.inr (Or.inl rfl)),
      nav_up_noop m hsel _ (Or.inr (Or.inr rfl))⟩
  · intro hsel
    exact ⟨nav_down_noop m hsel _ (Or.inl rfl), nav_down_noop m hsel _ (Or.inr (Or.inl rfl)),
      nav_down_noop m hsel _ (Or.inr (Or.inr rfl))⟩

/-- C5 witness: the theorem evaluated on the two-step state with the
second step selected, over a concrete key sequence. -/
theorem navigation_keeps_selection_in_range_witness :
    (0 < mBase.steps.length ∧ 0 ≤ mBase.selectedStep ∧
     mBase.selectedStep < (mBase.steps.length : Int)) ∧
    ((0 ≤ ((["down", "up", "k"].foldl Model.handleKeypress mBase)).selectedStep ∧
      (["down", "up", "k"].foldl Model.handleKeypress mBase).selectedStep <
        (mBase.steps.length : Int)) ∧
     (mBase.selectedStep = 0 →
       mBase.handleKeypress "up" = mBase ∧ mBase.handleKeypress "k" = mBase ∧
       mBase.handleKeypress "u" = mBase) ∧
     (mBase.selectedStep = (mBase.steps.length : Int) - 1 →
       mBase.handleKeypress "down" = mBase ∧ mBase.handleKeypress "j" = mBase ∧
       mBase.handleKeypress "e" = mBase)) :=
  ⟨⟨by decide, by decide, by decide⟩,
   navigation_keeps_selection_in_range mBase ["down", "up", "k"]
     (by decide) (by decide) (by decide)⟩

/-- C6: when the selected index is valid, toggling twice restores the
whole state and a single toggle changes no step other than the selected
one; when the step list is empty, toggle leaves the state unchanged. -/
theorem toggle_twice_restores (m : Model) :
    (0 ≤ m.selectedStep → m.selectedStep < (m.steps.length : Int) →
      (m.toggleStep.toggleStep = m ∧
       ∀ i, i ≠ m.selectedStep.toNat →
         m.toggleStep.steps.getD i defaultStep = m.steps.getD i defaultStep)) ∧
    (m.steps = [] → m.toggleStep = m) := by
  constructor
  · intro h0 h1
    have hguard : m.selectedStep ≥ 0 ∧ m.selectedStep < (m.steps.length : Int) := ⟨h0, h1⟩
    have step1 : m.toggleStep =
        { m with
          steps := modifyAt (fun s => { s with enabled := !s.enabled })
            m.selectedStep.toNat m.steps } := by
      unfold Model.toggleStep
      rw [if_pos hguard]
    constructor
    · rw [step1]
      unfold Model.toggleStep
      simp only [modifyAt_length]
      rw [if_pos hguard, modifyAt_modifyAt, modifyAt_congr_id]
      intro s
      simp
    · intro i hne
      rw [step1]
      exact modifyAt_getD_ne _ _ _ _ _ hne
  · intro h
    unfold Model.toggleStep
    have hng : ¬(m.selectedStep ≥ 0 ∧ m.selectedStep < (m.steps.length : Int)) := by
      rw [h]
      simp only [List.length_nil, Nat.cast_zero]
      omega
    rw [if_neg hng]

/-- C6 witness: the theorem evaluated on the two-step state (valid index
branch) and on a state with an empty step list. -/
theorem toggle_twice_restores_witness :
    (mBase.toggleStep.toggleStep = mBase ∧
     ∀ i, i ≠ mBase.selectedStep.toNat →
       mBase.toggleStep.steps.getD i defaultStep = mBase.steps.getD i defaultStep) ∧
    Model.toggleStep { mBase with steps := [] } = { mBase with steps := [] } :=
  ⟨(toggle_twice_restores mBase).1 (by decide) (by decide),
   (toggle_twice_restores { mBase with steps := [] }).2 rfl⟩

/-- C9 (amended): enter dismisses an active notification (space does not
— see `space_not_dismiss_counterexample`); space always performs the
step-toggle action, and with no active notification enter does too,
flipping the selected step's `Enabled` flag when the index is valid. -/
theorem enter_space_behavior (m : Model) :
    (m.notification ≠ none → m.handleKeypress "enter" = { m with notification := none }) ∧
    (m.handleKeypress " " = m.toggleStep) ∧
    (m.notification = none → m.handleKeypress "enter" = m.toggleStep) ∧
    (m.notification = none → 0 ≤ m.selectedStep → m.selectedStep < (m.steps.length : Int) →
      ((m.handleKeypress "enter").steps.getD m.selectedStep.toNat defaultStep).enabled
        = !((m.steps.getD m.selectedStep.toNat defaultStep).enabled)) := by
  have hspace : m.handleKeypress " " = m.toggleStep := by
    unfold Model.handleKeypress Model.navKeys
    simp
  have henter : m.notification = none → m.handleKeypress "enter" = m.toggleStep := by
    intro h
    unfold Model.handleKeypress Model.navKeys
    simp [h]
  refine ⟨?_, hspace, henter, ?_⟩
  · intro h
    unfold Model.handleKeypress
    simp [h]
  · intro h h0 h1
    rw [henter h]
    unfold Model.toggleStep
    rw [if_pos ⟨h0, h1⟩]
    have hlt : m.selectedStep.toNat < m.steps.length := by omega
    simp only [modifyAt_getD_eq _ _ _ _ hlt]

/-- C9 witness: enter dismisses on the notification state; on the
notification-free state, enter and space both perform the toggle and
flip the selected step's flag. -/
theorem enter_space_behavior_witness :
    (mNotif.notification ≠ none ∧
     mNotif.handleKeypress "enter" = { mNotif with notification := none }) ∧
    mBase.handleKeypress " " = mBase.toggleStep ∧
    (mBase.notification = none ∧
     ((mBase.handleKeypress "enter").steps.getD mBase.selectedStep.toNat defaultStep).enabled
       = !((mBase.steps.getD mBase.selectedStep.toNat defaultStep).enabled)) :=
  ⟨⟨by decide, (enter_space_behavior mNotif).1 (by decide)⟩,
   (enter_space_behavior mBase).2.1,
   ⟨rfl, (enter_space_behavior mBase).2.2.2 rfl (by decide) (by decide)⟩⟩

/-- C9 counterexample: with an active notification, pressing space does
not dismiss it — the notification stays active and the key instead
toggles the selected step's `Enabled` flag. -/
theorem space_not_dismiss_counterexample :
    mNotif.notification ≠ none ∧
    (mNotif.handleKeypress " ").notification = mNotif.notification ∧
    ((mNotif.handleKeypress " ").steps.getD 1 defaultStep).enabled = false ∧
    (mNotif.steps.getD 1 defaultStep).enabled = true := by decide

/-- C7: for any terminal width ≥ 50 and height ≥ 10, the pane widths
satisfy navWidth + detailWidth + 6 ≤ width; whenever the narrow-terminal
fallback does not apply, navWidth ≥ 25 and detailWidth ≥ 20; and at
width 100 the layout is navWidth = 25, detailWidth = 69. -/
theorem layout_widths (w h : Nat) (hw : 50 ≤ w) (hh : 10 ≤ h) :
    (layoutOf w).1 + (layoutOf w).2 + 6 ≤ w ∧
    (¬ (w - navWidthOf w - 6 < 20) → 25 ≤ (layoutOf w).1 ∧ 20 ≤ (layoutOf w).2) ∧
    layoutOf 100 = (25, 69) := by
  have hdef : layoutOf w =
      (if w - navWidthOf w - 6 < 20 then (w - 20 - 6, 20)
       else (navWidthOf w, w - navWidthOf w - 6)) := rfl
  have hnav25 : 25 ≤ navWidthOf w := by
    unfold navWidthOf
    split_ifs <;> omega
  refine ⟨?_, ?_, by decide⟩
  · rw [hdef]
    by_cases hfb : w - navWidthOf w - 6 < 20
    · rw [if_pos hfb]
      simp only
      omega
    · rw [if_neg hfb]
      simp only
      omega
  · intro hfb
    rw [hdef, if_neg hfb]
    exact ⟨hnav25, by simp only; omega⟩

/-- C7 witness: the theorem evaluated at the scenario width 100, height
30. -/
theorem layout_widths_witness :
    (50 ≤ 100 ∧ 10 ≤ 30) ∧
    ((layoutOf 100).1 + (layoutOf 100).2 + 6 ≤ 100 ∧
     (¬ (100 - navWidthOf 100 - 6 < 20) →
       25 ≤ (layoutOf 100).1 ∧ 20 ≤ (layoutOf 100).2) ∧
     layoutOf 100 = (25, 69)) :=
  ⟨⟨by decide, by decide⟩, layout_widths 100 30 (by decide) (by decide)⟩

/-- C10: a configuration-load failure at startup yields an initial state
with an empty step registry and an active error-kind notification; a
successful load yields no notification and the steps produced from the
loaded configuration. -/
theorem newModel_config_outcome (e : String) (cfg : InstallConfig) :
    (NewModel (Except.error e)).steps = [] ∧
    ((NewModel (Except.error e)).notification.map Notification.type) = some "error" ∧
    (NewModel (Except.ok cfg)).notification = none ∧
    (NewModel (Except.ok cfg)).steps = getConfigurableSteps cfg :=
  ⟨rfl, rfl, rfl, rfl⟩

end MacDevTUI
